import Mathlib

/-!
Verification model of the zfsilo volume orchestrator.

The development shallowly embeds the parts of the Go source that the checked
properties concern:

* the volume data model and lifecycle RPC handlers
  (app/internal/service/service_volume.go, app/internal/database/wire.go),
* the reversible-operation stack (lib/try/try.go),
* the IQN builder and the iscsiadm connect command
  (app/internal/command/iscsi/wire.go),
* pagination tokens (app/internal/service/lib.go).

Go strings that only ever face byte-level operations (IQNs, shell commands,
JSON, base64) are modelled as lists of byte values (List Nat); strings that
the service layer merely compares are modelled as Lean String.  Executor
calls reach remote hosts over SSH, so their outcomes are inputs of the model:
an Option String that is none on success and carries the stderr-style message
on failure.  Fallible Go functions return Except / Option.
-/

namespace ZFSilo

/-! ### Byte-string helpers -/

/-- Bytes models a Go string as the list of its byte values. -/
abbrev Bytes := List Nat

/-- strB converts a Lean string literal of ASCII characters to Bytes. -/
def strB (s : String) : Bytes := s.data.map Char.toNat

/-- bytesToStr converts Bytes back to a Lean string. -/
def bytesToStr (bs : Bytes) : String := String.mk (bs.map (fun n => Char.ofNat n))

/-- listLeads pat s decides whether pat occurs at the start of s. -/
def listLeads : Bytes → Bytes → Bool
  | [], _ => true
  | _ :: _, [] => false
  | p :: ps, c :: cs => p = c && listLeads ps cs

/-- listHasSub pat s decides whether pat occurs anywhere inside s
(models Go strings.Contains). -/
def listHasSub (pat : Bytes) : Bytes → Bool
  | [] => listLeads pat []
  | c :: cs => listLeads pat (c :: cs) || listHasSub pat cs

/-- strContains s pat models Go strings.Contains(s, pat) on Lean strings. -/
def strContains (s pat : String) : Bool := listHasSub (strB pat) (strB s)

/-- intercal sep joins a list of byte strings with the separator sep
(models Go strings.Join). -/
def intercal (sep : Bytes) : List Bytes → Bytes
  | [] => []
  | [x] => x
  | x :: y :: rest => x ++ sep ++ intercal sep (y :: rest)

/-! ### Decimal rendering and parsing

Models the decimal integer formatting of Go strconv / encoding/json and the
digit parsing needed for the page-token round trip. -/

/-- natDecimalAux renders a positive natural in decimal ASCII bytes;
it renders 0 as the empty list. -/
def natDecimalAux : Nat → Bytes
  | 0 => []
  | n + 1 => natDecimalAux ((n + 1) / 10) ++ [48 + (n + 1) % 10]
decreasing_by exact Nat.div_lt_self (Nat.succ_pos n) (by omega)

/-- natDecimal renders a natural number in decimal ASCII bytes. -/
def natDecimal (n : Nat) : Bytes := if n = 0 then [48] else natDecimalAux n

/-- intDecimal renders an integer in decimal ASCII bytes, with a leading
minus sign (byte 45) when negative, as Go strconv.AppendInt does. -/
def intDecimal (i : Int) : Bytes :=
  if i < 0 then 45 :: natDecimal (-i).toNat else natDecimal i.toNat

/-- isDigitB decides whether a byte is an ASCII decimal digit. -/
def isDigitB (c : Nat) : Bool := 48 ≤ c && c ≤ 57

/-- digitsSpan consumes leading decimal digits, accumulating their value. -/
def digitsSpan : Bytes → Nat → Nat × Bytes
  | [], acc => (acc, [])
  | c :: cs, acc =>
    if isDigitB c then digitsSpan cs (acc * 10 + (c - 48)) else (acc, c :: cs)

/-- parseDigitsOpt parses a nonempty run of decimal digits, returning its
value and the remaining input. -/
def parseDigitsOpt : Bytes → Option (Nat × Bytes)
  | [] => none
  | c :: cs => if isDigitB c then some (digitsSpan (c :: cs) 0) else none

/-- parseIntB parses an optional minus sign followed by decimal digits,
the integer syntax encoding/json uses for int fields. -/
def parseIntB : Bytes → Option (Int × Bytes)
  | [] => none
  | c :: cs =>
    if c = 45 then
      (parseDigitsOpt cs).map (fun p => (-(p.1 : Int), p.2))
    else
      (parseDigitsOpt (c :: cs)).map (fun p => ((p.1 : Int), p.2))

/-- headNotDigit holds when a byte string does not start with a decimal
digit, the condition under which a digit parse stops exactly there. -/
def headNotDigit : Bytes → Bool
  | [] => true
  | c :: _ => !isDigitB c

/-- expects pat s strips the exact byte sequence pat from the front of s,
failing when s does not start with pat. -/
def expects : Bytes → Bytes → Option Bytes
  | [], s => some s
  | _ :: _, [] => none
  | p :: ps, c :: cs => if p = c then expects ps cs else none

/-! ### Base64 (Go encoding/base64 URLEncoding, padded)

Models base64.URLEncoding.EncodeToString and DecodeString from
app/internal/service/lib.go.  Byte 61 is the padding character. -/

/-- b64alphabet is the URL-safe base64 alphabet. -/
def b64alphabet : Bytes :=
  strB "ABCDEFGHIJKLMNOPQRSTUVWXYZabcdefghijklmnopqrstuvwxyz0123456789-_"

/-- b64char maps a six-bit value to its alphabet byte. -/
def b64char (n : Nat) : Nat := b64alphabet.getD n 0

/-- b64val maps an alphabet byte back to its six-bit value. -/
def b64val (c : Nat) : Option Nat :=
  (List.range 64).find? (fun i => b64alphabet.getD i 0 = c)

/-- b64encode encodes a byte list in base64url with padding, grouping three
input bytes into four alphabet bytes. -/
def b64encode : Bytes → Bytes
  | [] => []
  | [a] => [b64char (a / 4), b64char (a % 4 * 16), 61, 61]
  | [a, b] => [b64char (a / 4), b64char (a % 4 * 16 + b / 16), b64char (b % 16 * 4), 61]
  | a :: b :: c :: rest =>
    b64char (a / 4) :: b64char (a % 4 * 16 + b / 16) ::
    b64char (b % 16 * 4 + c / 64) :: b64char (c % 64) :: b64encode rest

/-- b64decode decodes a padded base64url byte list, failing on bytes outside
the alphabet or on misplaced padding. -/
def b64decode : Bytes → Option Bytes
  | [] => some []
  | c1 :: c2 :: c3 :: c4 :: rest =>
    match b64val c1, b64val c2 with
    | some s1, some s2 =>
      if c3 = 61 then
        if c4 = 61 && rest.isEmpty then some [s1 * 4 + s2 / 16] else none
      else
        match b64val c3 with
        | some s3 =>
          if c4 = 61 then
            if rest.isEmpty then some [s1 * 4 + s2 / 16, s2 % 16 * 16 + s3 / 4] else none
          else
            match b64val c4 with
            | some s4 =>
              (b64decode rest).map
                (fun bs => (s1 * 4 + s2 / 16) :: (s2 % 16 * 16 + s3 / 4) ::
                  (s3 % 4 * 64 + s4) :: bs)
            | none => none
        | none => none
    | _, _ => none
  | _ => none

/-! ### Page tokens (app/internal/service/lib.go)

A PageToken is marshalled by encoding/json (a struct with fields Limit and
Offset tagged limit and offset, serialized in declaration order) and then
base64url-encoded.  Go ints are 64-bit; the model uses unbounded Int, which
contains every int64 value. -/

/-- PageToken mirrors the PageToken struct of app/internal/service/lib.go. -/
structure PageToken where
  Limit : Int
  Offset : Int
deriving DecidableEq, Repr

/-- jsonBytes renders exactly the bytes Go json.Marshal produces for a
PageToken value. -/
def jsonBytes (t : PageToken) : Bytes :=
  strB "\x7b\"limit\":" ++ intDecimal t.Limit ++
  strB ",\"offset\":" ++ intDecimal t.Offset ++ strB "\x7d"

/-- jsonParseToken models Go json.Unmarshal into a PageToken, restricted to
the canonical object layout json.Marshal emits (the layout is the only input
the round-trip claim exercises). -/
def jsonParseToken (bs : Bytes) : Option PageToken :=
  match expects (strB "\x7b\"limit\":") bs with
  | none => none
  | some bs1 =>
    match parseIntB bs1 with
    | none => none
    | some (l, bs2) =>
      match expects (strB ",\"offset\":") bs2 with
      | none => none
      | some bs3 =>
        match parseIntB bs3 with
        | none => none
        | some (o, bs4) =>
          match expects (strB "\x7d") bs4 with
          | none => none
          | some bs5 => if bs5.isEmpty then some ⟨l, o⟩ else none

/-- PageToken.Marshal models PageToken.Marshal: json.Marshal followed by
base64.URLEncoding.EncodeToString.  The Go version can only error when
json.Marshal errors, which it never does on this struct. -/
def PageToken.Marshal (t : PageToken) : Bytes := b64encode (jsonBytes t)

/-- UnmarshalPageToken models UnmarshalPageToken: base64 decode then
json.Unmarshal; none models a returned error. -/
def UnmarshalPageToken (s : Bytes) : Option PageToken :=
  match b64decode s with
  | none => none
  | some bs => jsonParseToken bs

/-! ### IQN builder (app/internal/command/iscsi/wire.go)

A Host carries a domain, an owner time and a hostname.  The model keeps the
owner time as a year and month pair, since Host.IQN only formats it with the
layout 2006-01.  Strings are byte lists; strings.ToLower is modelled on the
ASCII range, the only range IQN inputs use (byte 46 is the dot, 58 the colon,
45 the minus sign). -/

/-- lcByte lowercases one ASCII byte, as strings.ToLower does on ASCII. -/
def lcByte (c : Nat) : Nat := if 65 ≤ c ∧ c ≤ 90 then c + 32 else c

/-- lcB lowercases a byte string. -/
def lcB : Bytes → Bytes := List.map lcByte

/-- splitDot splits a byte string on the dot byte,
modelling strings.Split(domain, "."). -/
def splitDot : Bytes → List Bytes
  | [] => [[]]
  | c :: cs =>
    if c = 46 then [] :: splitDot cs
    else
      match splitDot cs with
      | [] => [[c]]
      | p :: ps => (c :: p) :: ps

/-- padZero w bs left-pads a digit string with zero bytes to width w,
modelling the fixed-width fields of the Go time layout 2006-01. -/
def padZero (w : Nat) (bs : Bytes) : Bytes := List.replicate (w - bs.length) 48 ++ bs

/-- fmtOwnerTime renders ownerTime.Format("2006-01"): a four-digit year, a
minus sign, and a two-digit month. -/
def fmtOwnerTime (year month : Nat) : Bytes :=
  padZero 4 (natDecimal year) ++ [45] ++ padZero 2 (natDecimal month)

/-- Host mirrors iscsi.Host: a domain, an owner time and a hostname. -/
structure Host where
  domain : Bytes
  ownerYear : Nat
  ownerMonth : Nat
  hostname : Bytes

/-- reverseDomain models the domain transformation inside Host.IQN: split on
dots, append a local label when there is a single part, reverse the parts and
join them with dots. -/
def reverseDomain (d : Bytes) : Bytes :=
  let parts := splitDot d
  let parts := if parts.length = 1 then parts ++ [strB "local"] else parts
  intercal [46] parts.reverse

/-- Host.IQN models iscsi.Host.IQN: iqn.YYYY-MM.reversed-domain.hostname,
lowercased as a whole. -/
def Host.IQN (h : Host) : Bytes :=
  lcB (strB "iqn." ++ fmtOwnerTime h.ownerYear h.ownerMonth ++ [46] ++
    reverseDomain h.domain ++ [46] ++ h.hostname)

/-- Host.VolumeIQN models iscsi.Host.VolumeIQN: the host IQN, a colon and
the volume id, lowercased again. -/
def Host.VolumeIQN (h : Host) (volumeID : Bytes) : Bytes :=
  lcB (h.IQN ++ [58] ++ volumeID)

/-- specVolumeIQN restates the shape the specification gives for the volume
IQN: one lowercase pass over iqn.YYYY-MM.reversed-dotted-domain.hostname
followed by a colon and the volume id. -/
def specVolumeIQN (h : Host) (volumeID : Bytes) : Bytes :=
  lcB (strB "iqn." ++ fmtOwnerTime h.ownerYear h.ownerMonth ++ [46] ++
    reverseDomain h.domain ++ [46] ++ h.hostname ++ [58] ++ volumeID)

/-! ### The iscsiadm connect command (app/internal/command/iscsi/wire.go)

connectTargetTmpl renders seven shell command groups, one per line; the
groups other than the last end in the two ampersand bytes (38), and
ConnectTarget joins the lines with spaces (byte 32).  Byte 39 is the single
quote and byte 34 the double quote of the template text. -/

/-- iscsiadmLine renders one group of the connect template: the fixed
iscsiadm invocation around the target IQN and portal, followed by the
per-line tail. -/
def iscsiadmLine (targetIQN targetEndpoint tail : Bytes) : Bytes :=
  strB "( iscsiadm --mode node --targetname " ++ [39] ++ targetIQN ++ [39] ++
  strB " --portal " ++ [34] ++ targetEndpoint ++ [34] ++ [32] ++ tail ++ strB " )"

/-- quoteArg wraps a template argument in the single quotes the template
text puts around credential values. -/
def quoteArg (v : Bytes) : Bytes := [39] ++ v ++ [39]

/-- connectTargetParts lists the seven command groups of connectTargetTmpl in
template order: one op new, five op update calls for the CHAP settings, and
the login. -/
def connectTargetParts (targetIQN targetEndpoint userID password mutualUserID
    mutualPassword : Bytes) : List Bytes :=
  [ iscsiadmLine targetIQN targetEndpoint (strB "--op new")
  , iscsiadmLine targetIQN targetEndpoint
      (strB "--op update --name node.session.auth.authmethod --value CHAP")
  , iscsiadmLine targetIQN targetEndpoint
      (strB "--op update --name node.session.auth.username --value " ++ quoteArg userID)
  , iscsiadmLine targetIQN targetEndpoint
      (strB "--op update --name node.session.auth.password --value " ++ quoteArg password)
  , iscsiadmLine targetIQN targetEndpoint
      (strB "--op update --name node.session.auth.username_in --value " ++ quoteArg mutualUserID)
  , iscsiadmLine targetIQN targetEndpoint
      (strB "--op update --name node.session.auth.password_in --value " ++ quoteArg mutualPassword)
  , iscsiadmLine targetIQN targetEndpoint (strB "--login") ]

/-- ConnectTargetCmd renders the single shell string ISCSI.ConnectTarget
hands to the executor: the rendered template lines, each non-final line ending
in two ampersands, joined by spaces after newline replacement. -/
def ConnectTargetCmd (targetIQN targetEndpoint userID password mutualUserID
    mutualPassword : Bytes) : Bytes :=
  intercal (strB " && ")
    (connectTargetParts targetIQN targetEndpoint userID password mutualUserID mutualPassword)

/-- splitSepFuel splits a byte string on a separator, with explicit fuel; used
only to state the frozen-claim predicate over a rendered command. -/
def splitSepFuel (sep : Bytes) : Nat → Bytes → List Bytes
  | 0, s => [s]
  | _ + 1, [] => [[]]
  | fuel + 1, c :: cs =>
    if listLeads sep (c :: cs) then
      [] :: splitSepFuel sep fuel (List.drop sep.length (c :: cs))
    else
      match splitSepFuel sep fuel cs with
      | [] => [[c]]
      | p :: ps => (c :: p) :: ps

/-- splitSep splits a byte string on a separator. -/
def splitSep (sep s : Bytes) : List Bytes := splitSepFuel sep (s.length + 1) s

/-- claimC9check states the frozen claim about the connect command as a
check on the rendered string: splitting on the ampersand joiner must give
exactly seven groups, the first six containing an op update flag and the last
the login flag. -/
def claimC9check (cmd : Bytes) : Bool :=
  let ps := splitSep (strB " && ") cmd
  ps.length = 7 &&
  (ps.take 6).all (fun p => listHasSub (strB "--op update") p) &&
  listHasSub (strB "--login") (ps.getD 6 [])

/-! ### Volume rows (app/internal/database/wire.go)

The store schema puts a primary key on ID only; DatasetID carries no unique
index.  CapacityBytes carries the check constraint capacity_bytes > 0. -/

/-- VolumeStatus mirrors database.VolumeStatus, an int enum. -/
inductive VolumeStatus where
  | UNSPECIFIED
  | INITIAL
  | PUBLISHED
  | CONNECTED
  | MOUNTED
deriving DecidableEq, Repr

/-- statusNum gives the integer value of a status constant, matching the
iota order of the Go declaration. -/
def statusNum : VolumeStatus → Nat
  | .UNSPECIFIED => 0
  | .INITIAL => 1
  | .PUBLISHED => 2
  | .CONNECTED => 3
  | .MOUNTED => 4

/-- VolumeMode mirrors database.VolumeMode. -/
inductive VolumeMode where
  | UNSPECIFIED
  | BLOCK
  | FILESYSTEM
deriving DecidableEq, Repr

/-- StructValue mirrors the kinds a structpb.Value can carry.  Number values
are float64 in Go; the model carries the integer the service converts them to
with int64(numValue.NumberValue). -/
inductive StructValue where
  | nullValue : StructValue
  | numberValue : Int → StructValue
  | stringValue : String → StructValue
  | boolValue : Bool → StructValue
  | structValue : List (String × StructValue) → StructValue
  | listValue : List StructValue → StructValue

/-- Volume mirrors database.Volume.  The opaque caller-owned Struct column is
kept as an optional StructValue, none being the zero value. -/
structure Volume where
  id : String
  name : String
  datasetID : String
  options : List (String × String)
  sparse : Bool
  mode : VolumeMode
  status : VolumeStatus
  capacityBytes : Int
  initiatorIQN : String
  targetIQN : String
  targetAddress : String
  mountPath : String
  structData : Option StructValue

/-- Volume.IsPublished mirrors database.Volume.IsPublished:
status at least PUBLISHED. -/
def Volume.IsPublished (v : Volume) : Bool := decide (2 ≤ statusNum v.status)

/-- Volume.IsConnected mirrors database.Volume.IsConnected:
status at least CONNECTED. -/
def Volume.IsConnected (v : Volume) : Bool := decide (3 ≤ statusNum v.status)

/-- Volume.IsMounted mirrors database.Volume.IsMounted:
status at least MOUNTED. -/
def Volume.IsMounted (v : Volume) : Bool := decide (4 ≤ statusNum v.status)

/-- Code mirrors the connect error codes the service emits. -/
inductive Code where
  | NotFound
  | AlreadyExists
  | InvalidArgument
  | FailedPrecondition
  | Internal
  | Unknown
deriving DecidableEq, Repr

/-- RPCError pairs a connect code with the error message. -/
abbrev RPCError := Code × String

/-- errCode extracts the connect code of an RPC outcome, none on success. -/
def errCode {α : Type} : Except RPCError α → Option Code
  | .error e => some e.1
  | .ok _ => none

/-- resIsErr reports whether an RPC outcome is an error. -/
def resIsErr {α : Type} : Except RPCError α → Bool
  | .error _ => true
  | .ok _ => false

/-- MutRes carries the outcome of a successful mutating handler: the row the
store holds afterwards and the volume message the handler returns (the Go
handlers return the in-memory volumedb, which the store write may differ from
on cleared fields). -/
structure MutRes where
  stored : Volume
  resp : Volume

/-- gormUpdates models a gorm Updates call with a struct argument: gorm
updates only the non-zero fields of the struct, so fields holding their zero
value keep the stored value. -/
def gormUpdates (old upd : Volume) : Volume where
  id := if upd.id = "" then old.id else upd.id
  name := if upd.name = "" then old.name else upd.name
  datasetID := if upd.datasetID = "" then old.datasetID else upd.datasetID
  options := if upd.options.isEmpty then old.options else upd.options
  sparse := if upd.sparse then upd.sparse else old.sparse
  mode := if upd.mode = .UNSPECIFIED then old.mode else upd.mode
  status := if upd.status = .UNSPECIFIED then old.status else upd.status
  capacityBytes := if upd.capacityBytes = 0 then old.capacityBytes else upd.capacityBytes
  initiatorIQN := if upd.initiatorIQN = "" then old.initiatorIQN else upd.initiatorIQN
  targetIQN := if upd.targetIQN = "" then old.targetIQN else upd.targetIQN
  targetAddress := if upd.targetAddress = "" then old.targetAddress else upd.targetAddress
  mountPath := if upd.mountPath = "" then old.mountPath else upd.mountPath
  structData := match upd.structData with
    | none => old.structData
    | some s => some s

/-! ### Lifecycle RPC handlers (app/internal/service/service_volume.go)

Each handler fetches the row for the request id, checks the lifecycle switch,
writes the row inside a store transaction, and runs executor commands inside
the same transaction; a command failure aborts the transaction, so on error
the stored row is the fetched row unchanged.  The model works at row level:
each function takes the fetched row and returns the stored row and response
on success, or the connect error.  Executor outcomes are Option String
parameters, none meaning exit status zero. -/

/-- hostVolumeIQNStr bridges the byte-level IQN builder into the service
layer strings. -/
def hostVolumeIQNStr (h : Host) (volumeID : String) : String :=
  bytesToStr (h.VolumeIQN (strB volumeID))

/-- PublishVolume models VolumeService.PublishVolume after the row fetch.
The source switch tests IsPublished before IsConnected and IsMounted, and
IsPublished is true for every status at or above PUBLISHED, so the two
invalid-argument arms are unreachable; the model keeps the same arm order. -/
def PublishVolume (host : Host) (v : Volume) (publishExec : Option String) :
    Except RPCError MutRes :=
  if v.IsPublished then .ok ⟨v, v⟩
  else if v.IsConnected then .error (.InvalidArgument, "volume is connected")
  else if v.IsMounted then .error (.InvalidArgument, "volume is mounted")
  else
    let vnew := { v with
      targetIQN := hostVolumeIQNStr host v.id
      status := .PUBLISHED }
    match publishExec with
    | some m => .error (.Internal, "failed to publish volume: failed to publish volume: " ++ m)
    | none => .ok ⟨gormUpdates v vnew, vnew⟩

/-- UnpublishVolume models VolumeService.UnpublishVolume after the row
fetch. -/
def UnpublishVolume (v : Volume) (unpublishExec : Option String) :
    Except RPCError MutRes :=
  if !v.IsPublished then .ok ⟨v, v⟩
  else if v.IsConnected then .error (.InvalidArgument, "volume is connected")
  else if v.IsMounted then .error (.InvalidArgument, "volume is mounted")
  else
    let vnew := { v with targetIQN := "", status := .INITIAL }
    match unpublishExec with
    | some m => .error (.Internal, "failed to unpublish volume: failed to unpublish volume: " ++ m)
    | none => .ok ⟨gormUpdates v vnew, vnew⟩

/-- ConnectVolumeRequest carries the request fields ConnectVolume reads. -/
structure ConnectVolumeRequest where
  initiatorIqn : String
  targetAddress : String

/-- ConnectVolume models VolumeService.ConnectVolume after the row fetch.
The source switch tests IsConnected before IsMounted, and IsConnected is true
at MOUNTED too, so a mounted row takes the idempotent-success arm; the model
keeps the same arm order.  consumers lists the keys of the consumer executor
map. -/
def ConnectVolume (v : Volume) (req : ConnectVolumeRequest)
    (consumers : List String) (connectExec : Option String) :
    Except RPCError MutRes :=
  if !v.IsPublished then .error (.InvalidArgument, "volume is not published")
  else if v.IsConnected then .ok ⟨v, v⟩
  else if v.IsMounted then .error (.InvalidArgument, "volume is mounted")
  else
    let vnew := { v with
      initiatorIQN := req.initiatorIqn
      targetAddress := req.targetAddress
      status := .CONNECTED }
    if !consumers.contains vnew.initiatorIQN then
      .error (.Internal, "failed to connect volume: unable to lookup consumer " ++ vnew.initiatorIQN)
    else
      match connectExec with
      | some m => .error (.Internal, "failed to connect volume: failed to connect volume: " ++ m)
      | none => .ok ⟨gormUpdates v vnew, vnew⟩

/-- DisconnectVolume models VolumeService.DisconnectVolume after the row
fetch; the consumer is looked up under the initiator recorded in the row
before it is cleared. -/
def DisconnectVolume (v : Volume) (consumers : List String)
    (disconnectExec : Option String) : Except RPCError MutRes :=
  if !v.IsPublished then .error (.InvalidArgument, "volume is not published")
  else if !v.IsConnected then .ok ⟨v, v⟩
  else if v.IsMounted then .error (.InvalidArgument, "volume is mounted")
  else
    let vnew := { v with
      initiatorIQN := ""
      targetAddress := ""
      status := .PUBLISHED }
    if !consumers.contains v.initiatorIQN then
      .error (.Internal, "failed to disconnect volume: unable to lookup consumer " ++ v.initiatorIQN)
    else
      match disconnectExec with
      | some m => .error (.Internal, "failed to disconnect volume: failed to disconnect volume: " ++ m)
      | none => .ok ⟨gormUpdates v vnew, vnew⟩

/-- MountVolumeRequest carries the request fields MountVolume reads. -/
structure MountVolumeRequest where
  mountPath : String

/-- MountEnv carries the executor outcomes of the commands MountVolume runs
on the consumer: the path preparation (install or mkdir), the mount, and the
chmod of the FILESYSTEM branch. -/
structure MountEnv where
  prepExec : Option String
  mountExec : Option String
  chmodExec : Option String

/-- MountVolume models VolumeService.MountVolume after the row fetch. -/
def MountVolume (v : Volume) (req : MountVolumeRequest)
    (consumers : List String) (env : MountEnv) : Except RPCError MutRes :=
  if !v.IsPublished then .error (.InvalidArgument, "volume is not published")
  else if !v.IsConnected then .error (.InvalidArgument, "volume is not connected")
  else if v.IsMounted then .ok ⟨v, v⟩
  else
    let vnew := { v with mountPath := req.mountPath, status := .MOUNTED }
    if !consumers.contains vnew.initiatorIQN then
      .error (.Internal, "failed to mount volume: unable to lookup consumer " ++ vnew.initiatorIQN)
    else
      match vnew.mode with
      | .BLOCK =>
        match env.prepExec with
        | some m => .error (.Internal, "failed to mount volume: failed to touch mount path: " ++ m)
        | none =>
          match env.mountExec with
          | some m => .error (.Internal, "failed to mount volume: failed to mount volume: " ++ m)
          | none => .ok ⟨gormUpdates v vnew, vnew⟩
      | .FILESYSTEM =>
        match env.prepExec with
        | some m => .error (.Internal, "failed to mount volume: failed to touch mount path: " ++ m)
        | none =>
          match env.mountExec with
          | some m => .error (.Internal, "failed to mount volume: failed to mount volume: " ++ m)
          | none =>
            match env.chmodExec with
            | some m => .error (.Internal, "failed to mount volume: failed to chmod mount path: " ++ m)
            | none => .ok ⟨gormUpdates v vnew, vnew⟩
      | .UNSPECIFIED =>
        .error (.Internal, "failed to mount volume: unsupported volume mode")

/-- UnmountVolume models VolumeService.UnmountVolume after the row fetch. -/
def UnmountVolume (v : Volume) (consumers : List String)
    (umountExec : Option String) : Except RPCError MutRes :=
  if !v.IsPublished then .error (.InvalidArgument, "volume is not published")
  else if !v.IsConnected then .error (.InvalidArgument, "volume is not connected")
  else if !v.IsMounted then .ok ⟨v, v⟩
  else
    let vnew := { v with mountPath := "", status := .CONNECTED }
    if !consumers.contains v.initiatorIQN then
      .error (.Internal, "failed to unmount volume: unable to lookup consumer " ++ v.initiatorIQN)
    else
      match umountExec with
      | some m => .error (.Internal, "failed to unmount volume: failed to umount volume: " ++ m)
      | none => .ok ⟨gormUpdates v vnew, vnew⟩

/-- DeleteVolume models VolumeService.DeleteVolume after the row fetch; a
success removes the row, so the outcome carries no stored row.  A destroy
failure whose transaction error mentions a busy dataset maps to
FailedPrecondition, anything else to Internal. -/
def DeleteVolume (v : Volume) (destroyExec : Option String) :
    Except RPCError Unit :=
  if v.IsPublished then .error (.InvalidArgument, "volume is published")
  else if v.IsConnected then .error (.InvalidArgument, "volume is connected")
  else if v.IsMounted then .error (.InvalidArgument, "volume is mounted")
  else
    match destroyExec with
    | some m =>
      let txErr := "failed to destroy zfs volume: " ++ m
      if strContains txErr "dataset is busy" then
        .error (.FailedPrecondition, "dataset is busy: " ++ txErr)
      else
        .error (.Internal, "failed to delete volume: " ++ txErr)
    | none => .ok ()

/-! ### UpdateVolume and applyVolumeUpdate
(app/internal/service/service_volume.go)

applyVolumeUpdate walks the fields of the request structpb map; Go map
iteration order is unspecified, so the model takes the entries as a list and
walks it in order (all orders agree except on which of several bad fields is
reported first).  The row write is explicitly not performed inside a store
transaction (source comment: no rollback capability), so the written row
survives any later producer or consumer failure. -/

/-- FieldTypeError mirrors service.FieldTypeError. -/
structure FieldTypeError where
  FieldName : String
  ExpectedType : String
  ActualType : String

/-- kindName gives the Go type name fmt.Sprintf("%T", ...) prints for a
structpb value kind. -/
def kindName : StructValue → String
  | .nullValue => "*structpb.Value_NullValue"
  | .numberValue _ => "*structpb.Value_NumberValue"
  | .stringValue _ => "*structpb.Value_StringValue"
  | .boolValue _ => "*structpb.Value_BoolValue"
  | .structValue _ => "*structpb.Value_StructValue"
  | .listValue _ => "*structpb.Value_ListValue"

/-- getStringValue models structpb.Value.GetStringValue, returning the empty
string for a missing or non-string value. -/
def getStringValue : StructValue → String
  | .stringValue s => s
  | _ => ""

/-- lookupField models structpb field map lookup; a missing key reads as the
null value, whose GetStringValue is empty. -/
def lookupField (fields : List (String × StructValue)) (k : String) : StructValue :=
  match fields.find? (fun p => p.1 = k) with
  | some p => p.2
  | none => .nullValue

/-- convertOptions converts the options list of an update request: every
element must be an object, whose key and value fields are read with
GetStringValue. -/
def convertOptions : List StructValue → Except FieldTypeError (List (String × String))
  | [] => .ok []
  | item :: rest =>
    match item with
    | .structValue fields =>
      match convertOptions rest with
      | .ok opts =>
        .ok ((getStringValue (lookupField fields "key"),
              getStringValue (lookupField fields "value")) :: opts)
      | .error e => .error e
    | other => .error ⟨"options[i]", "object", kindName other⟩

/-- applyVolumeUpdate models service.applyVolumeUpdate: the struct,
capacity_bytes and options fields are applied when well-typed, a wrongly
typed mutable field raises FieldTypeError, every other key is silently
ignored. -/
def applyVolumeUpdate (updates : List (String × StructValue)) (v : Volume) :
    Except FieldTypeError Volume :=
  match updates with
  | [] => .ok v
  | (k, val) :: rest =>
    if k = "struct" then
      match val with
      | .structValue fields =>
        applyVolumeUpdate rest { v with structData := some (.structValue fields) }
      | other => .error ⟨k, "object", kindName other⟩
    else if k = "capacity_bytes" then
      match val with
      | .numberValue n => applyVolumeUpdate rest { v with capacityBytes := n }
      | other => .error ⟨k, "number", kindName other⟩
    else if k = "options" then
      match val with
      | .listValue items =>
        match convertOptions items with
        | .ok opts => applyVolumeUpdate rest { v with options := opts }
        | .error e => .error e
      | other => .error ⟨k, "list", kindName other⟩
    else
      applyVolumeUpdate rest v

/-- UpdateEnv carries the outcomes of the calls UpdateVolume makes after
applying the update: the row write, the volsize zfs set, the option zfs set
sequence, the consumer lookup, the iSCSI rescan and the filesystem resize. -/
structure UpdateEnv where
  dbWrite : Option String
  setVolsize : Option String
  setOptions : Option String
  consumerKnown : Bool
  rescan : Option String
  resize : Option String

/-- UpdateVolume models VolumeService.UpdateVolume after the row fetch.  The
first component is the row the store holds after the call, whether or not the
call returned an error: the row write precedes the producer and consumer
calls and is not wrapped in a transaction. -/
def UpdateVolume (v : Volume) (updates : List (String × StructValue))
    (env : UpdateEnv) : Volume × Except RPCError Volume :=
  match applyVolumeUpdate updates v with
  | .error fte =>
    (v, .error (.InvalidArgument, "failed to update volume: field " ++ fte.FieldName ++
      " expected " ++ fte.ExpectedType ++ " got " ++ fte.ActualType))
  | .ok vnew =>
    match env.dbWrite with
    | some m => (v, .error (.Internal, "failed to update volume in database: " ++ m))
    | none =>
      let stored := gormUpdates v vnew
      match env.setVolsize with
      | some m => (stored, .error (.Internal, "failed to update volume size on producer: " ++ m))
      | none =>
        match env.setOptions with
        | some m => (stored, .error (.Internal, "failed to update volume property on producer: " ++ m))
        | none =>
          if vnew.IsPublished then
            if !env.consumerKnown then
              (stored, .error (.Internal, "unknown initiator: " ++ vnew.initiatorIQN))
            else
              match env.rescan with
              | some m => (stored, .error (.Internal, "failed to perform rescan on consumer: " ++ m))
              | none =>
                if vnew.mode = .FILESYSTEM then
                  match env.resize with
                  | some m => (stored, .error (.Internal, "failed to perform resize on consumer: " ++ m))
                  | none => (stored, .ok vnew)
                else (stored, .ok vnew)
          else (stored, .ok vnew)

/-! ### The reversible-operation stack (lib/try/try.go) and CreateVolume

The undo stack holds fallible world transformers.  Do runs the body; on a
body error it runs every pushed undo in LIFO order and joins the body error
with the cleanup errors.  The world state threaded through is the set of ZFS
datasets on the producer, modelled as a list of dataset names. -/

/-- World is the set of ZFS datasets living on the producer host. -/
abbrev World := List String

/-- UndoFunc mirrors try.UndoFunc: a fallible world transformer. -/
abbrev UndoFunc := World → World × Option String

/-- UndoStack mirrors try.UndoStack. -/
structure UndoStack where
  undos : List UndoFunc

/-- UndoStack.Push mirrors try.UndoStack.Push: append to the stack. -/
def UndoStack.Push (s : UndoStack) (fn : UndoFunc) : UndoStack :=
  ⟨s.undos ++ [fn]⟩

/-- runUndos runs a list of undo functions in the given order, threading the
world and collecting the messages of failing undos, each wrapped in the
cleanup-failed prefix as try.UndoStack.Undo does. -/
def runUndos : List UndoFunc → World → World × List String
  | [], w => (w, [])
  | fn :: fns, w =>
    let r := fn w
    let rest := runUndos fns r.1
    (rest.1, (match r.2 with
      | some m => ["cleanup failed: " ++ m]
      | none => []) ++ rest.2)

/-- UndoStack.Undo mirrors try.UndoStack.Undo: run the stack in LIFO order
and join the cleanup errors. -/
def UndoStack.Undo (s : UndoStack) (w : World) : World × List String :=
  runUndos s.undos.reverse w

/-- joinErrs models errors.Join rendering: messages on separate lines. -/
def joinErrs : List String → String
  | [] => ""
  | [m] => m
  | m :: rest => m ++ "\n" ++ joinErrs rest

/-- tryDo mirrors try.Do: run the body with a fresh stack; on a body error
run the undos and join the body error with the cleanup errors. -/
def tryDo (fn : UndoStack → World → UndoStack × World × Option String)
    (w : World) : World × Option String :=
  let r := fn ⟨[]⟩ w
  match r.2.2 with
  | none => (r.2.1, none)
  | some m =>
    let u := r.1.Undo r.2.1
    (u.1, some (joinErrs (m :: u.2)))

/-- CreateEnv carries the executor outcomes of the commands CreateVolume may
run on the producer: the zfs create, the mkfs of the FILESYSTEM branch, and
the zfs destroy pushed as undo. -/
structure CreateEnv where
  zfsCreate : Option String
  format : Option String
  destroy : Option String

/-- storeInsert models the gorm Create against the schema of
database.Volume: the primary key on id makes a duplicate id fail with the
SQLite unique-constraint message, the check constraint rejects a
non-positive capacity, and nothing constrains dataset_id. -/
def storeInsert (store : List Volume) (v : Volume) : Except String (List Volume) :=
  if store.any (fun w => w.id = v.id) then
    .error "UNIQUE constraint failed: volumes.id"
  else if v.capacityBytes ≤ 0 then
    .error "CHECK constraint failed: capacity_bytes > 0"
  else
    .ok (store ++ [v])

/-- mapCreateErr models the error mapping at the end of
VolumeService.CreateVolume: a transaction error mentioning a unique
constraint maps to AlreadyExists, everything else to Internal. -/
def mapCreateErr (m : String) : RPCError :=
  if strContains m "UNIQUE constraint failed" then
    (.AlreadyExists, "volume already exists")
  else
    (.Internal, "failed to create volume: " ++ m)

/-- createVolumeBody is the function CreateVolume passes to try.Do: run the
zfs create, push the destroy undo, and in FILESYSTEM mode format the device. -/
def createVolumeBody (v : Volume) (env : CreateEnv) (stack : UndoStack)
    (w : World) : UndoStack × World × Option String :=
  match env.zfsCreate with
  | some m => (stack, w, some ("failed to create zfs volume: " ++ m))
  | none =>
    let w1 := w ++ [v.datasetID]
    let stack1 := stack.Push (fun w2 =>
      match env.destroy with
      | some dm => (w2, some ("failed to destroy zfs volume: " ++ dm))
      | none => (w2.filter (fun d => d ≠ v.datasetID), none))
    if v.mode = .FILESYSTEM then
      match env.format with
      | some fm => (stack1, w1, some ("failed to format zfs volume: " ++ fm))
      | none => (stack1, w1, none)
    else
      (stack1, w1, none)

/-- createVolumeTx models the transaction body and rollback of CreateVolume
on the row v whose status was already forced to INITIAL: insert the row and
run the reversible block; a transaction error rolls the store back while the
world keeps the effects the undos left behind. -/
def createVolumeTx (store : List Volume) (w : World) (v : Volume)
    (env : CreateEnv) : List Volume × World × Except RPCError Volume :=
  match storeInsert store v with
  | .error m => (store, w, .error (mapCreateErr m))
  | .ok stored =>
    match tryDo (createVolumeBody v env) w with
    | (w2, none) => (stored, w2, .ok v)
    | (w2, some m) =>
      (store, w2, .error (mapCreateErr ("failed to create the zfs volume: " ++ m)))

/-- CreateVolume models VolumeService.CreateVolume: the incoming status is
unconditionally overwritten with INITIAL before the transaction runs. -/
def CreateVolume (store : List Volume) (w : World) (reqVol : Volume)
    (env : CreateEnv) : List Volume × World × Except RPCError Volume :=
  createVolumeTx store w { reqVol with status := VolumeStatus.INITIAL } env

/-! ### The stored-row invariant (claim C3) -/

/-- statusInv is the implication chain of the specification: a published row
carries a target IQN, a connected row an initiator IQN and target address, a
mounted row a mount path. -/
def statusInv (v : Volume) : Prop :=
  (2 ≤ statusNum v.status → v.targetIQN ≠ "") ∧
  (3 ≤ statusNum v.status → v.initiatorIQN ≠ "" ∧ v.targetAddress ≠ "") ∧
  (v.status = .MOUNTED → v.mountPath ≠ "")

instance (v : Volume) : Decidable (statusInv v) := by
  unfold statusInv
  infer_instance

/-- storedOr extracts the stored row of a mutating outcome, with a fallback
row for the error case. -/
def storedOr (d : Volume) : Except RPCError MutRes → Volume
  | .ok r => r.stored
  | .error _ => d

/-! ### Concrete example inputs for witnesses and counterexamples -/

/-- hostEx is a concrete host identity. -/
def hostEx : Host := ⟨strB "example.com", 2005, 3, strB "storage"⟩

/-- vInitialEx is a concrete freshly created volume row. -/
def vInitialEx : Volume :=
  { id := "vol_foo"
  , name := "foo"
  , datasetID := "tank/vol_foo"
  , options := []
  , sparse := true
  , mode := .FILESYSTEM
  , status := .INITIAL
  , capacityBytes := 104857600
  , initiatorIQN := ""
  , targetIQN := ""
  , targetAddress := ""
  , mountPath := ""
  , structData := none }

/-- vPublishedEx is vInitialEx after a publish. -/
def vPublishedEx : Volume :=
  { vInitialEx with
    status := .PUBLISHED
    targetIQN := "iqn.2005-03.com.example.storage:vol_foo" }

/-- vConnectedEx is vPublishedEx after a connect. -/
def vConnectedEx : Volume :=
  { vPublishedEx with
    status := .CONNECTED
    initiatorIQN := "iqn.2005-03.com.example:client"
    targetAddress := "10.0.0.1:3260" }

/-- vMountedEx is vConnectedEx after a mount. -/
def vMountedEx : Volume :=
  { vConnectedEx with
    status := .MOUNTED
    mountPath := "/mnt/vol_foo" }

/-- consumersEx is the key set of a concrete consumer executor map. -/
def consumersEx : List String := ["iqn.2005-03.com.example:client"]

/-- c3MountRes is a MountVolume call on a connected row whose request
carries an empty mount path, with every consumer command succeeding. -/
def c3MountRes : Except RPCError MutRes :=
  MountVolume vConnectedEx ⟨""⟩ consumersEx ⟨none, none, none⟩

/-- vCapEx is a concrete row with capacity 100. -/
def vCapEx : Volume := { vInitialEx with capacityBytes := 100 }

/-- c5Res is an UpdateVolume call shrinking the capacity to 50 while the
producer zfs set fails. -/
def c5Res : Volume × Except RPCError Volume :=
  UpdateVolume vCapEx [("capacity_bytes", .numberValue 50)]
    ⟨none, some "cannot shrink volume", none, true, none, none⟩

/-- c1Res is a CreateVolume call on an empty store where the zfs create
succeeds, the mkfs fails, and the pushed zfs destroy undo also fails. -/
def c1Res : List Volume × World × Except RPCError Volume :=
  CreateVolume [] [] vInitialEx ⟨none, some "mkfs failed", some "dataset is busy"⟩

/-- vAEx is a stored row owning the dataset tank/data. -/
def vAEx : Volume :=
  { vInitialEx with id := "vol_a", name := "a", datasetID := "tank/data", mode := .BLOCK }

/-- vBReqEx asks for a fresh id but the already-owned dataset tank/data. -/
def vBReqEx : Volume := { vAEx with id := "vol_b", name := "b" }

/-- c4Res is a CreateVolume call colliding on dataset_id only, where the zfs
create fails because the dataset already exists. -/
def c4Res : List Volume × World × Except RPCError Volume :=
  CreateVolume [vAEx] ["tank/data"] vBReqEx ⟨some "dataset already exists", none, none⟩

/-- capRequests bounds every capacity value an update map carries from
below. -/
def capRequests (updates : List (String × StructValue)) (c : Int) : Prop :=
  ∀ n : Int, ("capacity_bytes", StructValue.numberValue n) ∈ updates → c ≤ n

/-! ## Theorems -/

/-! ### Shared lemmas about CreateVolume -/

theorem storeInsert_ok {store : List Volume} {v : Volume} {s : List Volume}
    (h : storeInsert store v = .ok s) : s = store ++ [v] := by
  unfold storeInsert at h
  split_ifs at h <;> cases h <;> rfl

theorem tryDo_create_err {v : Volume} {env : CreateEnv} {w : World} {m : String}
    (h : env.zfsCreate = some m) :
    tryDo (createVolumeBody v env) w = (w, some ("failed to create zfs volume: " ++ m)) := by
  simp [tryDo, createVolumeBody, h, UndoStack.Undo, runUndos, joinErrs]

theorem tryDo_create_success {v : Volume} {env : CreateEnv} {w : World}
    (hc : env.zfsCreate = none) (hok : v.mode = .FILESYSTEM → env.format = none) :
    tryDo (createVolumeBody v env) w = (w ++ [v.datasetID], none) := by
  cases hmode : v.mode with
  | FILESYSTEM =>
    simp [tryDo, createVolumeBody, hc, hmode, hok hmode]
  | BLOCK =>
    simp [tryDo, createVolumeBody, hc, hmode]
  | UNSPECIFIED =>
    simp [tryDo, createVolumeBody, hc, hmode]

theorem tryDo_create_fmt {v : Volume} {env : CreateEnv} {w : World} {fm : String}
    (hc : env.zfsCreate = none) (hm : v.mode = .FILESYSTEM) (hf : env.format = some fm) :
    (tryDo (createVolumeBody v env) w).1 =
      (match env.destroy with
       | none => (w ++ [v.datasetID]).filter (fun d => d ≠ v.datasetID)
       | some _ => w ++ [v.datasetID]) ∧
    (tryDo (createVolumeBody v env) w).2.isSome = true := by
  cases hd : env.destroy with
  | none =>
    simp [tryDo, createVolumeBody, hc, hm, hf, hd, UndoStack.Push, UndoStack.Undo, runUndos]
  | some dm =>
    simp [tryDo, createVolumeBody, hc, hm, hf, hd, UndoStack.Push, UndoStack.Undo, runUndos]

theorem createVolumeTx_ok {store : List Volume} {w : World} {v : Volume}
    {env : CreateEnv} {st2 : List Volume} {w2 : World} {vres : Volume}
    (h : createVolumeTx store w v env = (st2, w2, .ok vres)) :
    vres = v ∧ st2 = store ++ [v] := by
  unfold createVolumeTx at h
  cases hins : storeInsert store v with
  | error m =>
    rw [hins] at h
    simp at h
  | ok stored =>
    rw [hins] at h
    cases htry : tryDo (createVolumeBody v env) w with
    | mk wt eo =>
      rw [htry] at h
      cases eo with
      | none =>
        simp at h
        exact ⟨h.2.2.symm, by rw [← h.1, storeInsert_ok hins]⟩
      | some m =>
        simp at h

theorem createVolumeTx_err_store {store : List Volume} {w : World} {v : Volume}
    {env : CreateEnv} {st2 : List Volume} {w2 : World} {e : RPCError}
    (h : createVolumeTx store w v env = (st2, w2, .error e)) : st2 = store := by
  unfold createVolumeTx at h
  cases hins : storeInsert store v with
  | error m =>
    rw [hins] at h
    simp at h
    exact h.1.symm
  | ok stored =>
    rw [hins] at h
    cases htry : tryDo (createVolumeBody v env) w with
    | mk wt eo =>
      rw [htry] at h
      cases eo with
      | none => simp at h
      | some m =>
        simp at h
        exact h.1.symm

/-! ### Claim C1 -/

/-- Claim C1 (corrected): when CreateVolume returns an error the store
transaction has rolled back, so the row is gone; every pushed undo has been
run, and the ZFS dataset is absent again provided the pushed zfs destroy undo
itself succeeded (and trivially when the zfs create never happened).  The
original claim fails when the undo itself fails: the dataset then survives
the error, see the counterexample. -/
theorem claim_C1 (store : List Volume) (w : World) (reqVol : Volume)
    (env : CreateEnv) (st2 : List Volume) (w2 : World) (e : RPCError)
    (hfresh : reqVol.datasetID ∉ w)
    (h : CreateVolume store w reqVol env = (st2, w2, .error e)) :
    st2 = store ∧ (env.destroy = none → reqVol.datasetID ∉ w2) ∧
      (env.zfsCreate ≠ none → w2 = w) := by
  unfold CreateVolume at h
  refine ⟨createVolumeTx_err_store h, ?_⟩
  unfold createVolumeTx at h
  cases hins : storeInsert store { reqVol with status := VolumeStatus.INITIAL } with
  | error m =>
    rw [hins] at h
    simp at h
    obtain ⟨-, hw, -⟩ := h
    exact ⟨fun _ => hw ▸ hfresh, fun _ => hw.symm⟩
  | ok stored =>
    rw [hins] at h
    cases hc : env.zfsCreate with
    | some mc =>
      rw [tryDo_create_err (v := { reqVol with status := VolumeStatus.INITIAL }) hc] at h
      simp at h
      obtain ⟨-, hw, -⟩ := h
      exact ⟨fun _ => hw ▸ hfresh, fun _ => hw.symm⟩
    | none =>
      cases hmode : reqVol.mode with
      | FILESYSTEM =>
        cases hf : env.format with
        | none =>
          rw [tryDo_create_success hc (fun _ => hf)] at h
          simp at h
        | some fm =>
          have hfmt := tryDo_create_fmt (w := w)
            (v := { reqVol with status := VolumeStatus.INITIAL }) hc hmode hf
          cases htry : tryDo (createVolumeBody { reqVol with status := VolumeStatus.INITIAL } env) w with
          | mk wt eo =>
            rw [htry] at h hfmt
            cases eo with
            | none => simp at hfmt
            | some m =>
              simp at h
              obtain ⟨-, hw, -⟩ := h
              refine ⟨?_, fun hne => absurd rfl hne⟩
              intro hd
              rw [hd] at hfmt
              simp only [] at hfmt
              rw [← hw, hfmt.1]
              intro hmem
              have := List.of_mem_filter hmem
              simp at this
      | BLOCK =>
        rw [tryDo_create_success hc (by intro hfs; rw [hmode] at hfs; cases hfs)] at h
        simp at h
      | UNSPECIFIED =>
        rw [tryDo_create_success hc (by intro hfs; rw [hmode] at hfs; cases hfs)] at h
        simp at h

/-- Witness for claim C1: a concrete CreateVolume whose zfs create fails; the
store stays empty and the world keeps no dataset. -/
theorem claim_C1_witness :
    ([] : List Volume) = [] ∧
      ((⟨some "zfs create failed", none, none⟩ : CreateEnv).destroy = none →
        vInitialEx.datasetID ∉ ([] : World)) ∧
      ((⟨some "zfs create failed", none, none⟩ : CreateEnv).zfsCreate ≠ none →
        ([] : World) = []) :=
  claim_C1 [] [] vInitialEx ⟨some "zfs create failed", none, none⟩ [] []
    (.Internal,
      "failed to create volume: failed to create the zfs volume: failed to create zfs volume: zfs create failed")
    (by simp) rfl

/-- Counterexample for claim C1: the mkfs step fails and the pushed zfs
destroy undo fails too; CreateVolume returns an error yet the dataset
tank/vol_foo still exists, so the pre-call state is not restored. -/
theorem claim_C1_cex :
    resIsErr c1Res.2.2 = true ∧ c1Res.2.1.contains "tank/vol_foo" = true := by
  constructor
  · rfl
  · decide

/-! ### Claim C2 -/

/-- Claim C2 (code bug): PublishVolume on a CONNECTED volume and
ConnectVolume on a MOUNTED volume return idempotent success with the current
row instead of the invalid-argument error the claim (and the dead switch arms
of the source) demand: the IsPublished (resp. IsConnected) arm is tested
first and already holds for every later status, making the invalid-argument
arms unreachable. -/
theorem claim_C2 :
    PublishVolume hostEx vConnectedEx none = .ok ⟨vConnectedEx, vConnectedEx⟩ ∧
    ConnectVolume vMountedEx ⟨"iqn.2005-03.com.example:client", "10.0.0.1:3260"⟩
      consumersEx none = .ok ⟨vMountedEx, vMountedEx⟩ := by
  exact ⟨rfl, rfl⟩

/-! ### Claim C4 -/

/-- Claim C4 (corrected): the store schema has a unique constraint only on
id, so a CreateVolume whose dataset_id collides with a live volume while its
id is fresh is not rejected with AlreadyExists: when the zfs create fails on
the existing dataset the call surfaces Internal (the message lacks the
unique-constraint text) with the store unchanged, and when the producer
commands succeed the call succeeds and two live rows share a dataset_id. -/
theorem claim_C4 (store : List Volume) (w : World) (reqVol : Volume)
    (env : CreateEnv)
    (hid : ∀ u ∈ store, u.id ≠ reqVol.id)
    (hds : ∃ u ∈ store, u.datasetID = reqVol.datasetID)
    (hcap : 0 < reqVol.capacityBytes) :
    (∀ m, env.zfsCreate = some m →
      strContains ("failed to create the zfs volume: " ++ ("failed to create zfs volume: " ++ m))
        "UNIQUE constraint failed" = false →
      errCode (CreateVolume store w reqVol env).2.2 = some .Internal ∧
        (CreateVolume store w reqVol env).1 = store) ∧
    (env.zfsCreate = none → (reqVol.mode = .FILESYSTEM → env.format = none) →
      ∃ u1 ∈ (CreateVolume store w reqVol env).1, ∃ u2 ∈ (CreateVolume store w reqVol env).1,
        u1.id ≠ u2.id ∧ u1.datasetID = u2.datasetID) := by
  have hins : storeInsert store { reqVol with status := VolumeStatus.INITIAL } =
      .ok (store ++ [{ reqVol with status := VolumeStatus.INITIAL }]) := by
    unfold storeInsert
    split_ifs with h1 h2
    · exfalso
      simp only [List.any_eq_true, decide_eq_true_eq] at h1
      obtain ⟨u, hu, he⟩ := h1
      exact hid u hu he
    · exfalso
      simp only [] at h2
      omega
    · rfl
  constructor
  · intro m hm hclean
    unfold CreateVolume createVolumeTx
    rw [hins, tryDo_create_err hm]
    dsimp only
    unfold mapCreateErr
    rw [if_neg (by rw [hclean]; simp)]
    exact ⟨rfl, rfl⟩
  · intro hc hfmt
    unfold CreateVolume createVolumeTx
    rw [hins, tryDo_create_success (v := { reqVol with status := VolumeStatus.INITIAL }) hc
      (fun hm2 => hfmt hm2)]
    dsimp only
    obtain ⟨u, hu, hud⟩ := hds
    refine ⟨u, by simp [hu], { reqVol with status := VolumeStatus.INITIAL }, by simp, ?_, hud⟩
    exact hid u hu

/-- Witness for claim C4: the concrete colliding CreateVolume of c4Res ends
in Internal with the store unchanged. -/
theorem claim_C4_witness :
    (errCode c4Res.2.2 = some .Internal ∧ c4Res.1 = [vAEx]) :=
  (claim_C4 [vAEx] ["tank/data"] vBReqEx ⟨some "dataset already exists", none, none⟩
    (by intro u hu; simp at hu; subst hu; decide)
    ⟨vAEx, by simp, rfl⟩
    (by decide)).1 "dataset already exists" rfl (by decide)

/-- Counterexample for claim C4: the colliding call returns Internal, not the
AlreadyExists the claim requires, and the error path leaves the original row
alone. -/
theorem claim_C4_cex :
    errCode c4Res.2.2 = some .Internal ∧
      (some Code.Internal ≠ some Code.AlreadyExists) ∧ c4Res.1 = [vAEx] := by
  refine ⟨by decide, by decide, rfl⟩

/-! ### Claim C10 -/

/-- Claim C10 (confirmed): a successful CreateVolume persists and returns the
request row with its status forced to INITIAL, whatever status the request
carried. -/
theorem claim_C10 (store : List Volume) (w : World) (reqVol : Volume)
    (env : CreateEnv) (st2 : List Volume) (w2 : World) (vres : Volume)
    (h : CreateVolume store w reqVol env = (st2, w2, .ok vres)) :
    vres = { reqVol with status := VolumeStatus.INITIAL } ∧
      st2 = store ++ [vres] ∧ vres.status = .INITIAL := by
  unfold CreateVolume at h
  obtain ⟨hv, hs⟩ := createVolumeTx_ok h
  subst hv
  exact ⟨rfl, hs, rfl⟩

/-- Witness for claim C10: a concrete CreateVolume whose request carries
status MOUNTED still persists and returns an INITIAL row. -/
theorem claim_C10_witness :
    vInitialEx = { ({ vInitialEx with status := VolumeStatus.MOUNTED } : Volume) with
        status := VolumeStatus.INITIAL } ∧
      [vInitialEx] = [] ++ [vInitialEx] ∧ vInitialEx.status = .INITIAL :=
  claim_C10 [] [] { vInitialEx with status := VolumeStatus.MOUNTED }
    ⟨none, none, none⟩ [vInitialEx] ["tank/vol_foo"] vInitialEx rfl

/-! ### Claim C5 -/

theorem applyVolumeUpdate_cap (updates : List (String × StructValue)) :
    ∀ v v2 : Volume, applyVolumeUpdate updates v = .ok v2 →
      v2.capacityBytes = v.capacityBytes ∨
        ("capacity_bytes", StructValue.numberValue v2.capacityBytes) ∈ updates := by
  induction updates with
  | nil =>
    intro v v2 h
    cases h
    exact Or.inl rfl
  | cons p rest ih =>
    intro v v2 h
    obtain ⟨k, val⟩ := p
    unfold applyVolumeUpdate at h
    by_cases hk1 : k = "struct"
    · rw [if_pos hk1] at h
      cases val with
      | structValue fields =>
        rcases ih _ _ h with h1 | h2
        · exact Or.inl h1
        · exact Or.inr (List.mem_cons_of_mem _ h2)
      | nullValue => exact Except.noConfusion h
      | numberValue n => exact Except.noConfusion h
      | stringValue s => exact Except.noConfusion h
      | boolValue b => exact Except.noConfusion h
      | listValue items => exact Except.noConfusion h
    · rw [if_neg hk1] at h
      by_cases hk2 : k = "capacity_bytes"
      · rw [if_pos hk2] at h
        cases val with
        | numberValue n =>
          rcases ih _ _ h with h1 | h2
          · subst hk2
            simp only [] at h1
            rw [h1]
            exact Or.inr (List.mem_cons_self _ _)
          · exact Or.inr (List.mem_cons_of_mem _ h2)
        | nullValue => exact Except.noConfusion h
        | stringValue s => exact Except.noConfusion h
        | boolValue b => exact Except.noConfusion h
        | structValue fields => exact Except.noConfusion h
        | listValue items => exact Except.noConfusion h
      · rw [if_neg hk2] at h
        by_cases hk3 : k = "options"
        · rw [if_pos hk3] at h
          cases val with
          | listValue items =>
            dsimp only at h
            cases hco : convertOptions items with
            | error e =>
              rw [hco] at h
              exact Except.noConfusion h
            | ok opts =>
              rw [hco] at h
              rcases ih _ _ h with h1 | h2
              · exact Or.inl h1
              · exact Or.inr (List.mem_cons_of_mem _ h2)
          | nullValue => exact Except.noConfusion h
          | numberValue n => exact Except.noConfusion h
          | stringValue s => exact Except.noConfusion h
          | boolValue b => exact Except.noConfusion h
          | structValue fields => exact Except.noConfusion h
        · rw [if_neg hk3] at h
          rcases ih _ _ h with h1 | h2
          · exact Or.inl h1
          · exact Or.inr (List.mem_cons_of_mem _ h2)

/-- Claim C5 (corrected): the stored capacity after an UpdateVolume call is
bounded below by the old value only under the extra hypothesis that every
capacity value the request carries is at least the current one.  The
orchestrator itself never compares the values: the row write applies the
requested capacity unconditionally and precedes the zfs set, so a shrinking
request shrinks the store even when the call then errors (see the
counterexample). -/
theorem claim_C5 (v : Volume) (updates : List (String × StructValue))
    (env : UpdateEnv) (hcap : capRequests updates v.capacityBytes) :
    v.capacityBytes ≤ (UpdateVolume v updates env).1.capacityBytes := by
  unfold UpdateVolume
  cases h : applyVolumeUpdate updates v with
  | error e => simp
  | ok v2 =>
    have hle : v.capacityBytes ≤ (gormUpdates v v2).capacityBytes := by
      have hcases := applyVolumeUpdate_cap updates v v2 h
      unfold gormUpdates
      dsimp only
      by_cases h0 : v2.capacityBytes = 0
      · rw [if_pos h0]
      · rw [if_neg h0]
        rcases hcases with h1 | h2
        · rw [h1]
        · exact hcap _ h2
    rcases env with ⟨db, sv, so, ck, rs, rz⟩
    cases db <;> cases sv <;> cases so <;> cases rs <;> cases rz <;> cases ck <;>
      dsimp only <;>
      first
        | exact hle
        | exact le_refl _
        | (split_ifs <;> exact hle)

/-- Witness for claim C5: a concrete non-shrinking update grows the stored
capacity. -/
theorem claim_C5_witness :
    vCapEx.capacityBytes ≤
      (UpdateVolume vCapEx [("capacity_bytes", StructValue.numberValue 200)]
        ⟨none, none, none, true, none, none⟩).1.capacityBytes :=
  claim_C5 vCapEx [("capacity_bytes", StructValue.numberValue 200)]
    ⟨none, none, none, true, none, none⟩
    (by
      intro n hn
      simp at hn
      subst hn
      decide)

/-- Counterexample for claim C5: an UpdateVolume requesting capacity 50 on a
row holding 100 writes 50 to the store and then returns an error from the
producer zfs set; the observable capacity decreased. -/
theorem claim_C5_cex :
    vCapEx.capacityBytes = 100 ∧ c5Res.1.capacityBytes = 50 ∧
      resIsErr c5Res.2 = true := by
  exact ⟨rfl, rfl, rfl⟩

/-! ### Claim C6 -/

/-- Claim C6 (corrected): a lifecycle RPC invoked below its required source
state fails with InvalidArgument, not the FailedPrecondition the claim names:
ConnectVolume and DisconnectVolume below PUBLISHED, MountVolume and
UnmountVolume below CONNECTED.  FailedPrecondition is reserved for the busy
dataset of DeleteVolume. -/
theorem claim_C6 (v : Volume) (creq : ConnectVolumeRequest)
    (mreq : MountVolumeRequest) (consumers : List String)
    (ce de ue : Option String) (menv : MountEnv) :
    (statusNum v.status < 2 →
      errCode (ConnectVolume v creq consumers ce) = some .InvalidArgument) ∧
    (statusNum v.status < 2 →
      errCode (DisconnectVolume v consumers de) = some .InvalidArgument) ∧
    (statusNum v.status < 3 →
      errCode (MountVolume v mreq consumers menv) = some .InvalidArgument) ∧
    (statusNum v.status < 3 →
      errCode (UnmountVolume v consumers ue) = some .InvalidArgument) := by
  cases hst : v.status <;>
    simp +decide [ConnectVolume, DisconnectVolume, MountVolume, UnmountVolume,
      Volume.IsPublished, Volume.IsConnected, Volume.IsMounted, statusNum, hst, errCode]

/-- Witness for claim C6: the four below-source cases at concrete rows. -/
theorem claim_C6_witness :
    errCode (ConnectVolume vInitialEx ⟨"iqn.x", "10.0.0.1:3260"⟩ consumersEx none) =
        some .InvalidArgument ∧
      errCode (DisconnectVolume vInitialEx consumersEx none) = some .InvalidArgument ∧
      errCode (MountVolume vPublishedEx ⟨"/mnt/x"⟩ consumersEx ⟨none, none, none⟩) =
        some .InvalidArgument ∧
      errCode (UnmountVolume vPublishedEx consumersEx none) = some .InvalidArgument :=
  ⟨(claim_C6 vInitialEx ⟨"iqn.x", "10.0.0.1:3260"⟩ ⟨"/mnt/x"⟩ consumersEx none none none
      ⟨none, none, none⟩).1 (by decide),
   (claim_C6 vInitialEx ⟨"iqn.x", "10.0.0.1:3260"⟩ ⟨"/mnt/x"⟩ consumersEx none none none
      ⟨none, none, none⟩).2.1 (by decide),
   (claim_C6 vPublishedEx ⟨"iqn.x", "10.0.0.1:3260"⟩ ⟨"/mnt/x"⟩ consumersEx none none none
      ⟨none, none, none⟩).2.2.1 (by decide),
   (claim_C6 vPublishedEx ⟨"iqn.x", "10.0.0.1:3260"⟩ ⟨"/mnt/x"⟩ consumersEx none none none
      ⟨none, none, none⟩).2.2.2 (by decide)⟩

/-- Counterexample for claim C6: ConnectVolume on an INITIAL volume returns
InvalidArgument, which is not the FailedPrecondition the claim requires. -/
theorem claim_C6_cex :
    ConnectVolume vInitialEx ⟨"iqn.x", "10.0.0.1:3260"⟩ consumersEx none =
        .error (.InvalidArgument, "volume is not published") ∧
      Code.InvalidArgument ≠ Code.FailedPrecondition := by
  exact ⟨rfl, by decide⟩

/-! ### Claim C3 -/

theorem hostVolumeIQNStr_ne_empty (h : Host) (volumeID : String) :
    hostVolumeIQNStr h volumeID ≠ "" := by
  unfold hostVolumeIQNStr bytesToStr Host.VolumeIQN lcB
  intro heq
  have hdata := congrArg String.data heq
  simp only [String.data] at hdata
  rw [List.map_eq_nil_iff, List.map_eq_nil_iff] at hdata
  simp at hdata

theorem statusInv_of_initial (v : Volume) (h : statusNum v.status ≤ 1) :
    statusInv v := by
  cases hst : v.status <;>
    simp [statusInv, statusNum, hst] <;>
    (rw [hst] at h; simp [statusNum] at h)

/-- Claim C3 (corrected): the implication chain is preserved by every
lifecycle mutation only under the extra hypotheses that the orchestrator
never checks: ConnectVolume requests carry a non-empty initiator IQN and
target address and MountVolume requests a non-empty mount path.  Without
them a successful call can store a CONNECTED row with an empty initiator or
a MOUNTED row with an empty mount path (see the counterexample); with them
every stored row the seven mutations produce satisfies the chain. -/
theorem claim_C3 (host : Host) (v : Volume) (creq : ConnectVolumeRequest)
    (mreq : MountVolumeRequest) (consumers : List String)
    (e1 e2 e3 e4 e5 : Option String) (menv : MountEnv)
    (store : List Volume) (w : World) (reqVol : Volume) (cenv : CreateEnv)
    (hinv : statusInv v)
    (hci : creq.initiatorIqn ≠ "") (hca : creq.targetAddress ≠ "")
    (hmp : mreq.mountPath ≠ "") :
    (∀ r, PublishVolume host v e1 = .ok r → statusInv r.stored) ∧
    (∀ r, UnpublishVolume v e2 = .ok r → statusInv r.stored) ∧
    (∀ r, ConnectVolume v creq consumers e3 = .ok r → statusInv r.stored) ∧
    (∀ r, DisconnectVolume v consumers e4 = .ok r → statusInv r.stored) ∧
    (∀ r, MountVolume v mreq consumers menv = .ok r → statusInv r.stored) ∧
    (∀ r, UnmountVolume v consumers e5 = .ok r → statusInv r.stored) ∧
    (∀ st2 w2 vres, CreateVolume store w reqVol cenv = (st2, w2, .ok vres) →
      statusInv vres) := by
  obtain ⟨hinv1, hinv2, hinv3⟩ := hinv
  refine ⟨?_, ?_, ?_, ?_, ?_, ?_, ?_⟩
  -- PublishVolume
  · intro r hr
    unfold PublishVolume at hr
    cases hst : v.status
    case UNSPECIFIED | INITIAL =>
      simp [hst, Volume.IsPublished, Volume.IsConnected, Volume.IsMounted, statusNum, hst] at hr
      cases e1 with
      | some m => exact Except.noConfusion hr
      | none =>
        simp at hr
        rw [← hr]
        refine ⟨fun _ => ?_, fun h3 => ?_, fun h4 => ?_⟩
        · simp [gormUpdates, hst]
          rw [if_neg (hostVolumeIQNStr_ne_empty host v.id)]
          exact hostVolumeIQNStr_ne_empty host v.id
        · exfalso
          simp [gormUpdates, statusNum] at h3
        · exfalso
          simp [gormUpdates] at h4
    case PUBLISHED | CONNECTED | MOUNTED =>
      simp [hst, Volume.IsPublished, statusNum] at hr
      rw [← hr]
      exact ⟨hinv1, hinv2, hinv3⟩
  -- UnpublishVolume
  · intro r hr
    unfold UnpublishVolume at hr
    cases hst : v.status
    case UNSPECIFIED | INITIAL =>
      simp [hst, Volume.IsPublished, statusNum] at hr
      rw [← hr]
      exact ⟨hinv1, hinv2, hinv3⟩
    case PUBLISHED =>
      simp [hst, Volume.IsPublished, Volume.IsConnected, Volume.IsMounted, statusNum] at hr
      cases e2 with
      | some m => exact Except.noConfusion hr
      | none =>
        simp at hr
        rw [← hr]
        apply statusInv_of_initial
        simp [gormUpdates, statusNum]
    case CONNECTED | MOUNTED =>
      simp [hst, Volume.IsPublished, Volume.IsConnected, Volume.IsMounted, statusNum] at hr
  -- ConnectVolume
  · intro r hr
    unfold ConnectVolume at hr
    cases hst : v.status
    case UNSPECIFIED | INITIAL =>
      simp [hst, Volume.IsPublished, statusNum] at hr
    case CONNECTED | MOUNTED =>
      simp [hst, Volume.IsPublished, Volume.IsConnected, statusNum] at hr
      rw [← hr]
      exact ⟨hinv1, hinv2, hinv3⟩
    case PUBLISHED =>
      simp [hst, Volume.IsPublished, Volume.IsConnected, Volume.IsMounted, statusNum] at hr
      by_cases hlk : creq.initiatorIqn ∈ consumers
      case neg =>
        rw [if_neg hlk] at hr
        exact Except.noConfusion hr
      case pos =>
        rw [if_pos hlk] at hr
        cases e3 with
        | some m => exact Except.noConfusion hr
        | none =>
          simp at hr
          rw [← hr]
          refine ⟨fun _ => ?_, fun _ => ⟨?_, ?_⟩, fun h4 => ?_⟩
          · simp [gormUpdates]
            exact hinv1 (by rw [hst]; decide)
          · simp [gormUpdates]
            rw [if_neg hci]
            exact hci
          · simp [gormUpdates]
            rw [if_neg hca]
            exact hca
          · exfalso
            simp [gormUpdates] at h4
  -- DisconnectVolume
  · intro r hr
    unfold DisconnectVolume at hr
    cases hst : v.status
    case UNSPECIFIED | INITIAL =>
      simp [hst, Volume.IsPublished, statusNum] at hr
    case PUBLISHED =>
      simp [hst, Volume.IsPublished, Volume.IsConnected, statusNum] at hr
      rw [← hr]
      exact ⟨hinv1, hinv2, hinv3⟩
    case CONNECTED =>
      simp [hst, Volume.IsPublished, Volume.IsConnected, Volume.IsMounted, statusNum] at hr
      by_cases hlk : v.initiatorIQN ∈ consumers
      case neg =>
        rw [if_neg hlk] at hr
        exact Except.noConfusion hr
      case pos =>
        rw [if_pos hlk] at hr
        cases e4 with
        | some m => exact Except.noConfusion hr
        | none =>
          simp at hr
          rw [← hr]
          refine ⟨fun _ => ?_, fun h3 => ?_, fun h4 => ?_⟩
          · simp [gormUpdates]
            exact hinv1 (by rw [hst]; decide)
          · exfalso
            simp [gormUpdates, statusNum] at h3
          · exfalso
            simp [gormUpdates] at h4
    case MOUNTED =>
      simp [hst, Volume.IsPublished, Volume.IsConnected, Volume.IsMounted, statusNum] at hr
  -- MountVolume
  · intro r hr
    unfold MountVolume at hr
    cases hst : v.status
    case UNSPECIFIED | INITIAL =>
      simp [hst, Volume.IsPublished, statusNum] at hr
    case PUBLISHED =>
      simp [hst, Volume.IsPublished, Volume.IsConnected, statusNum] at hr
    case MOUNTED =>
      simp [hst, Volume.IsPublished, Volume.IsConnected, Volume.IsMounted, statusNum] at hr
      rw [← hr]
      exact ⟨hinv1, hinv2, hinv3⟩
    case CONNECTED =>
      simp [hst, Volume.IsPublished, Volume.IsConnected, Volume.IsMounted, statusNum] at hr
      by_cases hlk : v.initiatorIQN ∈ consumers
      case neg =>
        rw [if_neg hlk] at hr
        exact Except.noConfusion hr
      case pos =>
        rw [if_pos hlk] at hr
        have hfields : statusInv (gormUpdates v
            { v with mountPath := mreq.mountPath, status := VolumeStatus.MOUNTED }) := by
          refine ⟨fun _ => ?_, fun _ => ⟨?_, ?_⟩, fun _ => ?_⟩
          · simp [gormUpdates]
            exact hinv1 (by rw [hst]; decide)
          · simp [gormUpdates]
            exact (hinv2 (by rw [hst]; decide)).1
          · simp [gormUpdates]
            exact (hinv2 (by rw [hst]; decide)).2
          · simp [gormUpdates]
            rw [if_neg hmp]
            exact hmp
        obtain ⟨pe, me, che⟩ := menv
        cases hmode : v.mode
        all_goals rw [hmode] at hr
        case UNSPECIFIED => exact Except.noConfusion hr
        case BLOCK =>
          cases pe with
          | some m => exact Except.noConfusion hr
          | none =>
            cases me with
            | some m => exact Except.noConfusion hr
            | none =>
              simp at hr
              rw [← hr, ← hmode]
              exact hfields
        case FILESYSTEM =>
          cases pe with
          | some m => exact Except.noConfusion hr
          | none =>
            cases me with
            | some m => exact Except.noConfusion hr
            | none =>
              cases che with
              | some m => exact Except.noConfusion hr
              | none =>
                simp at hr
                rw [← hr, ← hmode]
                exact hfields
  -- UnmountVolume
  · intro r hr
    unfold UnmountVolume at hr
    cases hst : v.status
    case UNSPECIFIED | INITIAL =>
      simp [hst, Volume.IsPublished, statusNum] at hr
    case PUBLISHED =>
      simp [hst, Volume.IsPublished, Volume.IsConnected, statusNum] at hr
    case CONNECTED =>
      simp [hst, Volume.IsPublished, Volume.IsConnected, Volume.IsMounted, statusNum] at hr
      rw [← hr]
      exact ⟨hinv1, hinv2, hinv3⟩
    case MOUNTED =>
      simp [hst, Volume.IsPublished, Volume.IsConnected, Volume.IsMounted, statusNum] at hr
      by_cases hlk : v.initiatorIQN ∈ consumers
      case neg =>
        rw [if_neg hlk] at hr
        exact Except.noConfusion hr
      case pos =>
        rw [if_pos hlk] at hr
        cases e5 with
        | some m => exact Except.noConfusion hr
        | none =>
          simp at hr
          rw [← hr]
          refine ⟨fun _ => ?_, fun _ => ⟨?_, ?_⟩, fun h4 => ?_⟩
          · simp [gormUpdates]
            exact hinv1 (by rw [hst]; decide)
          · simp [gormUpdates]
            exact (hinv2 (by rw [hst]; decide)).1
          · simp [gormUpdates]
            exact (hinv2 (by rw [hst]; decide)).2
          · exfalso
            simp [gormUpdates, statusNum] at h4
  -- CreateVolume
  · intro st2 w2 vres hr
    unfold CreateVolume at hr
    obtain ⟨hv, -⟩ := createVolumeTx_ok hr
    rw [hv]
    apply statusInv_of_initial
    simp [statusNum]

/-- Witness for claim C3: the concrete happy-path walk preserves the chain
at the publish step. -/
theorem claim_C3_witness :
    (∀ r, PublishVolume hostEx vInitialEx none = .ok r → statusInv r.stored) ∧
    (∀ r, UnpublishVolume vInitialEx none = .ok r → statusInv r.stored) ∧
    (∀ r, ConnectVolume vInitialEx ⟨"iqn.x", "10.0.0.1:3260"⟩ consumersEx none = .ok r →
      statusInv r.stored) ∧
    (∀ r, DisconnectVolume vInitialEx consumersEx none = .ok r → statusInv r.stored) ∧
    (∀ r, MountVolume vInitialEx ⟨"/mnt/x"⟩ consumersEx ⟨none, none, none⟩ = .ok r →
      statusInv r.stored) ∧
    (∀ r, UnmountVolume vInitialEx consumersEx none = .ok r → statusInv r.stored) ∧
    (∀ st2 w2 vres, CreateVolume [] [] vInitialEx ⟨none, none, none⟩ = (st2, w2, .ok vres) →
      statusInv vres) :=
  claim_C3 hostEx vInitialEx ⟨"iqn.x", "10.0.0.1:3260"⟩ ⟨"/mnt/x"⟩ consumersEx
    none none none none none ⟨none, none, none⟩ [] [] vInitialEx ⟨none, none, none⟩
    (by decide) (by decide) (by decide) (by decide)

/-- Counterexample for claim C3: MountVolume on a connected row whose request
carries an empty mount path succeeds when the consumer commands succeed, and
the stored row is MOUNTED with an empty mount path, breaking the chain. -/
theorem claim_C3_cex :
    statusInv vConnectedEx ∧ resIsErr c3MountRes = false ∧
      ¬ statusInv (storedOr vConnectedEx c3MountRes) := by
  refine ⟨by decide, rfl, by decide⟩

/-! ### Claim C7: base64 lemmas -/

theorem b64val_b64char : ∀ n < 64, b64val (b64char n) = some n := by decide

theorem b64char_ne_61 : ∀ n < 64, b64char n ≠ 61 := by decide

theorem b64_roundtrip (bs : Bytes) (hb : ∀ x ∈ bs, x < 256) :
    b64decode (b64encode bs) = some bs := by
  match bs with
  | [] => rfl
  | [a] =>
    have ha : a < 256 := hb a (by simp)
    have h1 := b64val_b64char (a / 4) (by omega)
    have h2 := b64val_b64char (a % 4 * 16) (by omega)
    simp only [b64encode, b64decode, h1, h2]
    simp only [List.isEmpty_nil, Bool.and_true, if_pos rfl]
    simp
    omega
  | [a, b] =>
    have ha : a < 256 := hb a (by simp)
    have hbb : b < 256 := hb b (by simp)
    have h1 := b64val_b64char (a / 4) (by omega)
    have h2 := b64val_b64char (a % 4 * 16 + b / 16) (by omega)
    have h3 := b64val_b64char (b % 16 * 4) (by omega)
    have h3ne := b64char_ne_61 (b % 16 * 4) (by omega)
    simp only [b64encode, b64decode, h1, h2, h3]
    rw [if_neg h3ne]
    simp only [List.isEmpty_nil, if_pos rfl]
    simp
    constructor <;> omega
  | a :: b :: c :: d :: rest2 =>
    have ha : a < 256 := hb a (by simp)
    have hbb : b < 256 := hb b (by simp)
    have hc : c < 256 := hb c (by simp)
    have ih : b64decode (b64encode (d :: rest2)) = some (d :: rest2) :=
      b64_roundtrip (d :: rest2) (fun x hx => hb x
        (List.mem_cons_of_mem _ (List.mem_cons_of_mem _ (List.mem_cons_of_mem _ hx))))
    have h1 := b64val_b64char (a / 4) (by omega)
    have h2 := b64val_b64char (a % 4 * 16 + b / 16) (by omega)
    have h3 := b64val_b64char (b % 16 * 4 + c / 64) (by omega)
    have h4 := b64val_b64char (c % 64) (by omega)
    have h3ne := b64char_ne_61 (b % 16 * 4 + c / 64) (by omega)
    have h4ne := b64char_ne_61 (c % 64) (by omega)
    simp only [b64encode, b64decode, h1, h2, h3, h4]
    rw [if_neg h3ne, if_neg h4ne, ih]
    simp
    refine ⟨by omega, by omega, by omega⟩
  | [a, b, c] =>
    have ha : a < 256 := hb a (by simp)
    have hbb : b < 256 := hb b (by simp)
    have hc : c < 256 := hb c (by simp)
    have h1 := b64val_b64char (a / 4) (by omega)
    have h2 := b64val_b64char (a % 4 * 16 + b / 16) (by omega)
    have h3 := b64val_b64char (b % 16 * 4 + c / 64) (by omega)
    have h4 := b64val_b64char (c % 64) (by omega)
    have h3ne := b64char_ne_61 (b % 16 * 4 + c / 64) (by omega)
    have h4ne := b64char_ne_61 (c % 64) (by omega)
    simp only [b64encode, b64decode, h1, h2, h3, h4]
    rw [if_neg h3ne, if_neg h4ne]
    simp
    refine ⟨by omega, by omega, by omega⟩

/-! ### Claim C7: decimal rendering and parsing lemmas -/

theorem natDecimalAux_digits (n : Nat) : ∀ d ∈ natDecimalAux n, 48 ≤ d ∧ d ≤ 57 := by
  match n with
  | 0 => simp [natDecimalAux]
  | m + 1 =>
    intro d hd
    unfold natDecimalAux at hd
    rw [List.mem_append] at hd
    rcases hd with h | h
    · exact natDecimalAux_digits ((m + 1) / 10) d h
    · simp at h
      omega
decreasing_by exact Nat.div_lt_self (Nat.succ_pos m) (by omega)

theorem natDecimalAux_ne_nil (n : Nat) (h : n ≠ 0) : natDecimalAux n ≠ [] := by
  match n with
  | m + 1 =>
    unfold natDecimalAux
    simp

theorem natDecimalAux_foldl (n : Nat) : ∀ acc : Nat,
    List.foldl (fun a d => a * 10 + (d - 48)) acc (natDecimalAux n) =
      acc * 10 ^ (natDecimalAux n).length + n := by
  match n with
  | 0 =>
    intro acc
    simp [natDecimalAux]
  | m + 1 =>
    intro acc
    unfold natDecimalAux
    rw [List.foldl_append]
    rw [natDecimalAux_foldl ((m + 1) / 10)]
    have hstep : 48 + (m + 1) % 10 - 48 = (m + 1) % 10 := by omega
    have hdm : (m + 1) / 10 * 10 + (m + 1) % 10 = m + 1 := by omega
    simp only [List.foldl_cons, List.foldl_nil, List.length_append, List.length_cons,
      List.length_nil, Nat.zero_add, hstep]
    calc (acc * 10 ^ (natDecimalAux ((m + 1) / 10)).length + (m + 1) / 10) * 10 + (m + 1) % 10
        = acc * (10 ^ (natDecimalAux ((m + 1) / 10)).length * 10) +
            ((m + 1) / 10 * 10 + (m + 1) % 10) := by ring
      _ = acc * 10 ^ ((natDecimalAux ((m + 1) / 10)).length + 1) + (m + 1) := by
            rw [hdm, pow_succ]
decreasing_by exact Nat.div_lt_self (Nat.succ_pos m) (by omega)

theorem natDecimal_digits (n : Nat) : ∀ d ∈ natDecimal n, 48 ≤ d ∧ d ≤ 57 := by
  unfold natDecimal
  split_ifs
  · simp
  · exact natDecimalAux_digits n

theorem digitsSpan_append (ds : Bytes) : ∀ (rest : Bytes) (acc : Nat),
    (∀ d ∈ ds, 48 ≤ d ∧ d ≤ 57) → headNotDigit rest = true →
    digitsSpan (ds ++ rest) acc =
      (List.foldl (fun a d => a * 10 + (d - 48)) acc ds, rest) := by
  induction ds with
  | nil =>
    intro rest acc hds hrest
    cases rest with
    | nil => rfl
    | cons c cs =>
      simp [headNotDigit] at hrest
      simp [digitsSpan, hrest]
  | cons d ds ih =>
    intro rest acc hds hrest
    have hd := hds d (by simp)
    have hdig : isDigitB d = true := by simp [isDigitB]; omega
    simp only [List.cons_append, digitsSpan, hdig, if_pos, List.append_eq]
    rw [ih rest (acc * 10 + (d - 48)) (fun x hx => hds x (by simp [hx])) hrest]
    simp

theorem parseDigitsOpt_natDecimal (n : Nat) (rest : Bytes)
    (hrest : headNotDigit rest = true) :
    parseDigitsOpt (natDecimal n ++ rest) = some (n, rest) := by
  by_cases h0 : n = 0
  · subst h0
    rw [show natDecimal 0 ++ rest = 48 :: rest by simp [natDecimal]]
    simp only [parseDigitsOpt]
    rw [if_pos (by simp [isDigitB])]
    have hspan := digitsSpan_append [48] rest 0 (by simp) hrest
    simp only [List.singleton_append] at hspan
    rw [hspan]
    simp
  · have hne := natDecimalAux_ne_nil n h0
    obtain ⟨d, ds, hds⟩ := List.exists_cons_of_ne_nil hne
    have hnd : natDecimal n = d :: ds := by
      unfold natDecimal
      rw [if_neg h0]
      exact hds
    have hdig : 48 ≤ d ∧ d ≤ 57 := by
      apply natDecimalAux_digits n
      rw [hds]
      simp
    rw [hnd]
    simp only [List.cons_append, parseDigitsOpt]
    rw [if_pos (by simp [isDigitB]; omega)]
    have hspan := digitsSpan_append (natDecimalAux n) rest 0 (natDecimalAux_digits n) hrest
    rw [hds] at hspan
    simp only [List.cons_append] at hspan
    rw [hspan]
    have hf := natDecimalAux_foldl n 0
    rw [hds] at hf
    simp only [Nat.zero_mul, Nat.zero_add] at hf
    rw [hf]

theorem parseIntB_intDecimal (i : Int) (rest : Bytes)
    (hrest : headNotDigit rest = true) :
    parseIntB (intDecimal i ++ rest) = some (i, rest) := by
  by_cases hneg : i < 0
  · simp only [intDecimal, if_pos hneg, List.cons_append, parseIntB]
    rw [if_pos trivial]
    rw [parseDigitsOpt_natDecimal (-i).toNat rest hrest]
    have htn : ((-i).toNat : Int) = -i := Int.toNat_of_nonneg (by omega)
    dsimp only [Option.map]
    rw [htn, neg_neg]
  · simp only [intDecimal, if_neg hneg]
    have hcons : ∃ d ds, natDecimal i.toNat = d :: ds ∧ 48 ≤ d ∧ d ≤ 57 := by
      by_cases h0 : i.toNat = 0
      · exact ⟨48, [], by simp [natDecimal, h0], by omega, by omega⟩
      · obtain ⟨d, ds, hds⟩ :=
          List.exists_cons_of_ne_nil (natDecimalAux_ne_nil i.toNat h0)
        refine ⟨d, ds, by simp [natDecimal, h0, hds], ?_⟩
        apply natDecimalAux_digits i.toNat
        rw [hds]
        simp
    obtain ⟨d, ds, hnd, hd1, hd2⟩ := hcons
    rw [hnd]
    simp only [List.cons_append, parseIntB]
    rw [if_neg (by omega)]
    rw [← List.cons_append, ← hnd]
    rw [parseDigitsOpt_natDecimal i.toNat rest hrest]
    have htn : (i.toNat : Int) = i := Int.toNat_of_nonneg (by omega)
    dsimp only [Option.map]
    rw [htn]

theorem expects_append (pat rest : Bytes) : expects pat (pat ++ rest) = some rest := by
  induction pat with
  | nil => rfl
  | cons p ps ih =>
    simp only [List.cons_append, expects, if_pos rfl]
    exact ih

theorem jsonParseToken_jsonBytes (t : PageToken) :
    jsonParseToken (jsonBytes t) = some t := by
  have e1 : expects (strB "\x7b\"limit\":") (jsonBytes t) =
      some (intDecimal t.Limit ++
        (strB ",\"offset\":" ++ (intDecimal t.Offset ++ strB "\x7d"))) := by
    unfold jsonBytes
    simp only [List.append_assoc]
    exact expects_append _ _
  have p1 : parseIntB (intDecimal t.Limit ++
      (strB ",\"offset\":" ++ (intDecimal t.Offset ++ strB "\x7d"))) =
      some (t.Limit, strB ",\"offset\":" ++ (intDecimal t.Offset ++ strB "\x7d")) :=
    parseIntB_intDecimal _ _ (by rfl)
  have e2 : expects (strB ",\"offset\":")
      (strB ",\"offset\":" ++ (intDecimal t.Offset ++ strB "\x7d")) =
      some (intDecimal t.Offset ++ strB "\x7d") := expects_append _ _
  have p2 : parseIntB (intDecimal t.Offset ++ strB "\x7d") =
      some (t.Offset, strB "\x7d") := parseIntB_intDecimal _ _ (by rfl)
  have e3 : expects (strB "\x7d") (strB "\x7d") = some [] := by
    have h := expects_append (strB "\x7d") []
    rwa [List.append_nil] at h
  unfold jsonParseToken
  rw [e1]
  dsimp only
  rw [p1]
  dsimp only
  rw [e2]
  dsimp only
  rw [p2]
  dsimp only
  rw [e3]
  rfl

theorem natDecimal_lt (n : Nat) : ∀ x ∈ natDecimal n, x < 256 := by
  intro x hx
  have := natDecimal_digits n x hx
  omega

theorem intDecimal_lt (i : Int) : ∀ x ∈ intDecimal i, x < 256 := by
  intro x hx
  unfold intDecimal at hx
  split_ifs at hx
  · simp at hx
    rcases hx with h | h
    · omega
    · exact natDecimal_lt _ x h
  · exact natDecimal_lt _ x hx

theorem jsonBytes_lt (t : PageToken) : ∀ x ∈ jsonBytes t, x < 256 := by
  intro x hx
  unfold jsonBytes at hx
  simp only [List.mem_append] at hx
  rcases hx with ((((h | h) | h) | h) | h) <;>
    first
      | exact intDecimal_lt _ x h
      | revert h
        revert x
        decide

/-- Claim C7 (confirmed): marshalling a PageToken (JSON then padded
base64url) and unmarshalling it back is the identity, for every limit and
offset. -/
theorem claim_C7 (t : PageToken) : UnmarshalPageToken (PageToken.Marshal t) = some t := by
  unfold UnmarshalPageToken PageToken.Marshal
  rw [b64_roundtrip _ (jsonBytes_lt t)]
  exact jsonParseToken_jsonBytes t

/-! ### Claim C8: lowercase and IQN lemmas -/

theorem lcByte_lcByte (c : Nat) : lcByte (lcByte c) = lcByte c := by
  unfold lcByte
  split_ifs <;> omega

theorem lcB_lcB (s : Bytes) : lcB (lcB s) = lcB s := by
  unfold lcB
  rw [List.map_map]
  exact List.map_congr_left (fun c _ => lcByte_lcByte c)

theorem lcB_append (a b : Bytes) : lcB (a ++ b) = lcB a ++ lcB b :=
  List.map_append lcByte a b

theorem lcByte_low {c : Nat} (h : c < 65) : lcByte c = c := by
  unfold lcByte
  rw [if_neg (by omega)]

theorem lcByte_eq_dot (c : Nat) : lcByte c = 46 ↔ c = 46 := by
  unfold lcByte
  split_ifs <;> omega

theorem splitDot_ne_nil (s : Bytes) : splitDot s ≠ [] := by
  cases s with
  | nil => simp [splitDot]
  | cons c cs =>
    unfold splitDot
    split_ifs
    · simp
    · cases h : splitDot cs <;> simp

theorem splitDot_lcB (d : Bytes) : splitDot (lcB d) = (splitDot d).map lcB := by
  induction d with
  | nil => rfl
  | cons c cs ih =>
    show splitDot (lcByte c :: lcB cs) = (splitDot (c :: cs)).map lcB
    unfold splitDot
    by_cases hc : c = 46
    · rw [if_pos (by rw [lcByte_eq_dot]; exact hc), if_pos hc]
      rw [ih]
      rfl
    · rw [if_neg (by rw [lcByte_eq_dot]; exact hc), if_neg hc]
      rw [ih]
      cases h : splitDot cs with
      | nil => exact absurd h (splitDot_ne_nil cs)
      | cons p ps => rfl

theorem intercal_lcB (ps : List Bytes) :
    lcB (intercal [46] ps) = intercal [46] (ps.map lcB) := by
  match ps with
  | [] => rfl
  | [x] => rfl
  | x :: y :: rest =>
    show lcB (x ++ [46] ++ intercal [46] (y :: rest)) = _
    rw [lcB_append, lcB_append, intercal_lcB (y :: rest)]
    rfl

theorem lcB_fixed_of_low (s : Bytes) (h : ∀ c ∈ s, c < 65) : lcB s = s := by
  induction s with
  | nil => rfl
  | cons c cs ih =>
    show lcByte c :: lcB cs = c :: cs
    rw [lcByte_low (h c (by simp)), ih (fun x hx => h x (by simp [hx]))]

theorem reverseDomain_lcB (d : Bytes) :
    reverseDomain (lcB d) = lcB (reverseDomain d) := by
  unfold reverseDomain
  simp only [splitDot_lcB, List.length_map]
  by_cases h1 : (splitDot d).length = 1
  · simp only [if_pos h1, intercal_lcB, List.map_reverse, List.map_append, List.map_cons,
      List.map_nil, show lcB (strB "local") = strB "local" from rfl]
  · simp only [if_neg h1, intercal_lcB, List.map_reverse]

theorem natDecimal_lc (n : Nat) : lcB (natDecimal n) = natDecimal n :=
  lcB_fixed_of_low _ (fun c hc => by have := natDecimal_digits n c hc; omega)

theorem padZero_lc (w : Nat) (bs : Bytes) (h : lcB bs = bs) :
    lcB (padZero w bs) = padZero w bs := by
  unfold padZero
  rw [lcB_append, h]
  congr 1
  apply lcB_fixed_of_low
  intro c hc
  rw [List.eq_of_mem_replicate hc]
  omega

theorem fmtOwnerTime_lc (y m : Nat) :
    lcB (fmtOwnerTime y m) = fmtOwnerTime y m := by
  unfold fmtOwnerTime
  rw [lcB_append, lcB_append]
  rw [padZero_lc _ _ (natDecimal_lc y), padZero_lc _ _ (natDecimal_lc m)]
  rfl

theorem hostIQN_lcB (h : Host) :
    Host.IQN ⟨lcB h.domain, h.ownerYear, h.ownerMonth, lcB h.hostname⟩ = h.IQN := by
  unfold Host.IQN
  dsimp only
  rw [reverseDomain_lcB]
  simp only [lcB_append, lcB_lcB, fmtOwnerTime_lc]

/-- Claim C8 (confirmed): Host.VolumeIQN produces exactly the lowercase of
iqn.YYYY-MM.reversed-dotted-domain.hostname followed by a colon and the
volume id (the shape the specification states, with a single-label domain
extended by local before reversing), and it is case-insensitive: hosts and
volume ids that agree up to letter case produce identical IQNs. -/
theorem claim_C8 :
    (∀ (h : Host) (volumeID : Bytes),
      h.VolumeIQN volumeID = specVolumeIQN h volumeID) ∧
    (∀ (h1 h2 : Host) (id1 id2 : Bytes),
      lcB h1.domain = lcB h2.domain → h1.ownerYear = h2.ownerYear →
      h1.ownerMonth = h2.ownerMonth → lcB h1.hostname = lcB h2.hostname →
      lcB id1 = lcB id2 → h1.VolumeIQN id1 = h2.VolumeIQN id2) := by
  have hlower : ∀ (h : Host) (volumeID : Bytes),
      Host.VolumeIQN ⟨lcB h.domain, h.ownerYear, h.ownerMonth, lcB h.hostname⟩
        (lcB volumeID) = h.VolumeIQN volumeID := by
    intro h volumeID
    unfold Host.VolumeIQN
    rw [hostIQN_lcB]
    simp only [lcB_append, lcB_lcB]
  constructor
  · intro h volumeID
    unfold Host.VolumeIQN Host.IQN specVolumeIQN
    simp only [lcB_append, lcB_lcB]
  · intro h1 h2 id1 id2 hdom hy hm hhost hid
    rw [← hlower h1 id1, ← hlower h2 id2]
    rw [hdom, hy, hm, hhost, hid]

/-- Witness for claim C8: a host written in mixed case and an upper-case
volume id produce the same IQN as the lower-case host and id. -/
theorem claim_C8_witness :
    Host.VolumeIQN ⟨strB "EXAMPLE.Com", 2005, 3, strB "Storage"⟩ (strB "VOL_FOO") =
      Host.VolumeIQN hostEx (strB "vol_foo") :=
  claim_C8.2 ⟨strB "EXAMPLE.Com", 2005, 3, strB "Storage"⟩ hostEx
    (strB "VOL_FOO") (strB "vol_foo")
    (by decide) rfl rfl (by decide) (by decide)

/-! ### Claim C9: substring lemmas and the connect command -/

theorem listLeads_refl (p : Bytes) : listLeads p p = true := by
  induction p with
  | nil => rfl
  | cons c cs ih => simp [listLeads, ih]

theorem listLeads_append (p x m : Bytes) (h : listLeads p x = true) :
    listLeads p (x ++ m) = true := by
  induction p generalizing x with
  | nil => rfl
  | cons c cs ih =>
    cases x with
    | nil => exact absurd h (by simp [listLeads])
    | cons d ds =>
      simp only [listLeads, Bool.and_eq_true, decide_eq_true_eq] at h
      simp only [List.cons_append, listLeads, Bool.and_eq_true, decide_eq_true_eq]
      exact ⟨h.1, ih ds h.2⟩

theorem listHasSub_append_left (pat x m : Bytes) (h : listHasSub pat x = true) :
    listHasSub pat (x ++ m) = true := by
  induction x with
  | nil =>
    cases pat with
    | nil =>
      cases m with
      | nil => rfl
      | cons c cs => simp [listHasSub, listLeads]
    | cons p ps => exact absurd h (by simp [listHasSub, listLeads])
  | cons c cs ih =>
    simp only [listHasSub, Bool.or_eq_true] at h
    simp only [List.cons_append, listHasSub, Bool.or_eq_true]
    rcases h with h | h
    · exact Or.inl (listLeads_append pat (c :: cs) m h)
    · exact Or.inr (ih h)

theorem listHasSub_append_right (pat x m : Bytes) (h : listHasSub pat m = true) :
    listHasSub pat (x ++ m) = true := by
  induction x with
  | nil => exact h
  | cons c cs ih =>
    simp only [List.cons_append, listHasSub, Bool.or_eq_true]
    exact Or.inr ih

theorem hasSub_iscsiadmLine (pat iqn ep tail : Bytes)
    (h : listHasSub pat tail = true) :
    listHasSub pat (iscsiadmLine iqn ep tail) = true := by
  unfold iscsiadmLine
  exact listHasSub_append_left _ _ _ (listHasSub_append_right _ _ _ h)

/-- Claim C9 (corrected): the single shell string ConnectTarget hands to the
executor is seven command groups joined by the ampersand pair: one iscsiadm
op new call, then five (not six) iscsiadm op update calls for the CHAP
settings, then the iscsiadm login call. -/
theorem claim_C9 (iqn ep uid pwd muid mpwd : Bytes) :
    ConnectTargetCmd iqn ep uid pwd muid mpwd =
      intercal (strB " && ") (connectTargetParts iqn ep uid pwd muid mpwd) ∧
    (connectTargetParts iqn ep uid pwd muid mpwd).length = 7 ∧
    listHasSub (strB "--op new")
      ((connectTargetParts iqn ep uid pwd muid mpwd).getD 0 []) = true ∧
    listHasSub (strB "--op update")
      ((connectTargetParts iqn ep uid pwd muid mpwd).getD 1 []) = true ∧
    listHasSub (strB "--op update")
      ((connectTargetParts iqn ep uid pwd muid mpwd).getD 2 []) = true ∧
    listHasSub (strB "--op update")
      ((connectTargetParts iqn ep uid pwd muid mpwd).getD 3 []) = true ∧
    listHasSub (strB "--op update")
      ((connectTargetParts iqn ep uid pwd muid mpwd).getD 4 []) = true ∧
    listHasSub (strB "--op update")
      ((connectTargetParts iqn ep uid pwd muid mpwd).getD 5 []) = true ∧
    listHasSub (strB "--login")
      ((connectTargetParts iqn ep uid pwd muid mpwd).getD 6 []) = true := by
  refine ⟨rfl, rfl, ?_, ?_, ?_, ?_, ?_, ?_, ?_⟩
  · exact hasSub_iscsiadmLine _ _ _ _ (by decide)
  · exact hasSub_iscsiadmLine _ _ _ _ (by decide)
  · exact hasSub_iscsiadmLine _ _ _ _ (listHasSub_append_left _ _ _ (by decide))
  · exact hasSub_iscsiadmLine _ _ _ _ (listHasSub_append_left _ _ _ (by decide))
  · exact hasSub_iscsiadmLine _ _ _ _ (listHasSub_append_left _ _ _ (by decide))
  · exact hasSub_iscsiadmLine _ _ _ _ (listHasSub_append_left _ _ _ (by decide))
  · exact hasSub_iscsiadmLine _ _ _ _ (by decide)

set_option maxRecDepth 8000 in
/-- Counterexample for claim C9: on concrete arguments the rendered connect
command fails the frozen-claim check, because the first of the seven groups
is an op new call, not an op update call; only five groups carry op
update. -/
theorem claim_C9_cex :
    claimC9check (ConnectTargetCmd (strB "iqn.a") (strB "10.0.0.1:3260")
      (strB "u") (strB "p") (strB "mu") (strB "mp")) = false := by
  decide

end ZFSilo
